import Mathlib

/-!
Verification of the lyrics-extractor service (api.py,
core/working_lyrics_extractor.py, core/supabase_client.py).

The Python functions are shallowly embedded as executable Lean
definitions over `String` and `List Char`.  External effects (the
Google custom-search HTTP transport, page fetching and HTML parsing by
BeautifulSoup, the Gemini model, the Supabase client) are supplied as
explicit oracle arguments, so every function below is a pure, total
translation of the corresponding Python control flow.
-/

/-! ## Python string primitives -/

/-- Whitespace recognised by Python `str.strip()` (modelled on the ASCII
whitespace characters). -/
def isPySpace (c : Char) : Bool :=
  c = ' ' || c = '\t' || c = '\n' || c = '\r' || c = '\x0b' || c = '\x0c'

/-- Remove trailing characters satisfying `isPySpace` (the right half of
Python `str.strip()`). -/
def trimTrail : List Char → List Char
  | [] => []
  | c :: rest =>
    let r := trimTrail rest
    if r.isEmpty && isPySpace c then [] else c :: r

/-- Python `str.strip()` on a character list: drop leading whitespace,
then trailing whitespace. -/
def pyStripL (l : List Char) : List Char :=
  trimTrail (l.dropWhile isPySpace)

/-- Python `str.strip()` on a `String`. -/
def pyStrip (s : String) : String :=
  ⟨pyStripL s.data⟩

/-- Does `p` occur as a prefix of `l`? -/
def startsWithL : List Char → List Char → Bool
  | [], _ => true
  | _ :: _, [] => false
  | p :: ps, c :: cs => p = c && startsWithL ps cs

/-- Does `pat` occur as a contiguous substring of `l`?  This is the
Python `in` operator on strings. -/
def hasSub (pat : List Char) : List Char → Bool
  | [] => startsWithL pat []
  | c :: rest => startsWithL pat (c :: rest) || hasSub pat rest

/-- Python `str.lower()` (ASCII letters). -/
def lowerL (l : List Char) : List Char :=
  l.map Char.toLower

/-! ## The lyrics normalizer, api.py `_normalize_and_validate_lyrics` -/

/-- One step (from the right) of the sequential Python replaces
`replace('\r\n','\n').replace('\r','\n')`.  The Bool records whether the
head of the accumulated suffix is an original newline, so that a CR
directly before it merges with it (occurrences of the two-character
pattern never overlap, hence right-to-left pairing agrees with the
left-to-right scan of `str.replace`). -/
def convStep (c : Char) (p : List Char × Bool) : List Char × Bool :=
  if c = '\r' then
    if p.2 then (p.1, false) else ('\n' :: p.1, false)
  else if c = '\n' then ('\n' :: p.1, true)
  else (c :: p.1, false)

/-- The sequential Python replaces `replace('\r\n','\n').replace('\r','\n')`:
every CRLF pair becomes one LF and every remaining CR becomes LF. -/
def convertNewlines (l : List Char) : List Char :=
  (l.foldr convStep ([], false)).1

/-- Replacement emitted for one maximal run of `n` newlines by
`re.sub(r"\n{3,}", "\n\n", s)`: runs of three or more collapse to two. -/
def runRepl (n : Nat) : List Char :=
  if 3 ≤ n then ['\n', '\n'] else List.replicate n '\n'

/-- Worker for the `\n{3,}` collapse: `n` counts the newlines of the run
currently being read. -/
def collapseAux : Nat → List Char → List Char
  | n, [] => runRepl n
  | n, c :: rest =>
    if c = '\n' then collapseAux (n + 1) rest
    else runRepl n ++ c :: collapseAux 0 rest

/-- The Python `re.sub(r"\n{3,}", "\n\n", s)`. -/
def collapseNewlines (l : List Char) : List Char :=
  collapseAux 0 l

/-- A route-level lyrics value: the JSON field may hold a string or any
non-string value (Python checks `isinstance(raw_lyrics, str)`). -/
inductive PyInput where
  | str (s : String)
  | notStr
deriving DecidableEq

/-- api.py `_normalize_and_validate_lyrics`: newline conversion, blank-run
collapse, strip, then the emptiness and size guards. -/
def normalizeAndValidateLyrics : PyInput → Except String String
  | .notStr => .error "lyrics must be a string"
  | .str s =>
    let normalized := pyStripL (collapseNewlines (convertNewlines s.data))
    if normalized.length = 0 then .error "lyrics must not be empty"
    else if 20000 < normalized.length then
      .error "lyrics too long; please provide fewer than 20,000 characters"
    else .ok ⟨normalized⟩

/-- The three normalization steps of the spec, in order, with no guards. -/
def normalizedForm (s : String) : String :=
  ⟨pyStripL (collapseNewlines (convertNewlines s.data))⟩

/-- Truth of "this call raised". -/
def isErr {ε α : Type} : Except ε α → Bool
  | .error _ => true
  | .ok _ => false

/-- C3: the normalizer raises exactly on a non-string, an
empty-after-normalization string, or a normalized length above 20000;
on success it returns the line-ending-converted, blank-run-collapsed,
trimmed input, in that order. -/
theorem normalizer_contract (v : PyInput) :
    (isErr (normalizeAndValidateLyrics v) = true ↔
      v = .notStr ∨
      (∃ s, v = .str s ∧ ((normalizedForm s).length = 0 ∨ 20000 < (normalizedForm s).length))) ∧
    (∀ s t, v = .str s → normalizeAndValidateLyrics v = .ok t → t = normalizedForm s) := by
  constructor
  · cases v with
    | notStr => simp [normalizeAndValidateLyrics, isErr]
    | str s =>
      simp only [normalizeAndValidateLyrics, normalizedForm]
      constructor
      · intro h
        right
        refine ⟨s, rfl, ?_⟩
        by_cases h0 : (pyStripL (collapseNewlines (convertNewlines s.data))).length = 0
        · left; simpa [String.length] using h0
        · by_cases h1 : 20000 < (pyStripL (collapseNewlines (convertNewlines s.data))).length
          · right; simpa [String.length] using h1
          · simp [h0, h1, isErr] at h
      · rintro (h | ⟨s', hs, h⟩)
        · exact absurd h (by simp)
        · cases hs
          rcases h with h | h

          · simp only [String.length] at h
            simp [h, isErr]
          · simp only [String.length] at h
            rcases Nat.eq_zero_or_pos (pyStripL (collapseNewlines (convertNewlines s.data))).length with h0 | h0
            · simp [h0, isErr]
            · simp [Nat.pos_iff_ne_zero.mp h0, h, isErr]
  · intro s t hv h
    cases hv
    simp only [normalizeAndValidateLyrics] at h
    by_cases h0 : (pyStripL (collapseNewlines (convertNewlines s.data))).length = 0
    · simp [h0] at h
    · by_cases h1 : 20000 < (pyStripL (collapseNewlines (convertNewlines s.data))).length
      · simp [h0, h1] at h
      · simp only [h0, h1, if_false, if_neg, ite_false] at h
        simp only [normalizedForm]
        cases h
        rfl

/-- Witness for `normalizer_contract` at a concrete input. -/
theorem normalizer_contract_witness :
    "hi\nthere\n\nend" = normalizedForm "  hi\r\nthere\n\n\n\nend  " :=
  (normalizer_contract (.str "  hi\r\nthere\n\n\n\nend  ")).2
    "  hi\r\nthere\n\n\n\nend  " "hi\nthere\n\nend" rfl (by rfl)

/-! ## Idempotence of the normalizer (C4) -/

/-- Bool check that every maximal run of newlines in `l`, when `n` newlines
have already been read immediately before `l`, has total length at most 2. -/
def okAux : Nat → List Char → Bool
  | _, [] => true
  | n, c :: rest =>
    if c = '\n' then decide (n + 1 ≤ 2) && okAux (n + 1) rest else okAux 0 rest

theorem trimTrail_cons (c : Char) (rest : List Char) :
    trimTrail (c :: rest) =
      if (trimTrail rest).isEmpty && isPySpace c then [] else c :: trimTrail rest := rfl

theorem okAux_cons_nl (n : Nat) (rest : List Char) :
    okAux n ('\n' :: rest) = (decide (n + 1 ≤ 2) && okAux (n + 1) rest) := by
  simp [okAux]

theorem okAux_cons_other (n : Nat) (c : Char) (rest : List Char) (h : ¬c = '\n') :
    okAux n (c :: rest) = okAux 0 rest := by
  simp [okAux, h]

theorem collapseAux_cons_nl (n : Nat) (rest : List Char) :
    collapseAux n ('\n' :: rest) = collapseAux (n + 1) rest := by
  simp [collapseAux]

theorem collapseAux_cons_other (n : Nat) (c : Char) (rest : List Char) (h : ¬c = '\n') :
    collapseAux n (c :: rest) = runRepl n ++ c :: collapseAux 0 rest := by
  simp [collapseAux, h]

theorem cr_not_mem_convertNewlines (l : List Char) : '\r' ∉ convertNewlines l := by
  unfold convertNewlines
  induction l with
  | nil => simp
  | cons c rest ih =>
    rw [List.foldr_cons]
    rcases hfr : rest.foldr convStep ([], false) with ⟨acc, flag⟩
    rw [hfr] at ih
    simp only at ih
    by_cases hr : c = '\r'
    · subst hr
      cases flag with
      | true => simpa [convStep] using ih
      | false =>
        rw [show (convStep '\r' (acc, false)).1 = '\n' :: acc from rfl]
        simp only [List.mem_cons, not_or]
        exact ⟨by decide, ih⟩
    · by_cases hn : c = '\n'
      · subst hn
        rw [show (convStep '\n' (acc, flag)).1 = '\n' :: acc from rfl]
        simp only [List.mem_cons, not_or]
        exact ⟨by decide, ih⟩
      · simp only [convStep, if_neg hr, if_neg hn]
        simp only [List.mem_cons, not_or]
        exact ⟨fun h => hr h.symm, ih⟩

theorem convertNewlines_eq_self (l : List Char) (h : '\r' ∉ l) :
    convertNewlines l = l := by
  unfold convertNewlines
  induction l with
  | nil => simp
  | cons c rest ih =>
    simp only [List.mem_cons, not_or] at h
    rw [List.foldr_cons]
    rcases hfr : rest.foldr convStep ([], false) with ⟨acc, flag⟩
    have hacc : acc = rest := by
      have := ih h.2
      rw [hfr] at this
      simpa using this
    have hr : ¬c = '\r' := fun hc => h.1 hc.symm
    by_cases hn : c = '\n'
    · subst hn
      simp [convStep, if_neg hr, hacc]
    · simp [convStep, if_neg hr, if_neg hn, hacc]

theorem okAux_mono (l : List Char) :
    ∀ m m', m' ≤ m → okAux m l = true → okAux m' l = true := by
  induction l with
  | nil => intro m m' _ _; rfl
  | cons c rest ih =>
    intro m m' hm h
    by_cases hc : c = '\n'
    · subst hc
      rw [okAux_cons_nl] at h ⊢
      simp only [Bool.and_eq_true, decide_eq_true_iff] at h ⊢
      exact ⟨by omega, ih (m + 1) (m' + 1) (by omega) h.2⟩
    · rw [okAux_cons_other m c rest hc] at h
      rw [okAux_cons_other m' c rest hc]
      exact h

theorem okAux_dropWhile (p : Char → Bool) (l : List Char) :
    ∀ m, okAux m l = true → okAux 0 (l.dropWhile p) = true := by
  induction l with
  | nil => intro m _; rfl
  | cons c rest ih =>
    intro m h
    by_cases hp : p c
    · rw [List.dropWhile_cons_of_pos hp]
      by_cases hc : c = '\n'
      · subst hc
        rw [okAux_cons_nl] at h
        simp only [Bool.and_eq_true] at h
        exact ih (m + 1) h.2
      · rw [okAux_cons_other m c rest hc] at h
        exact ih 0 h
    · rw [List.dropWhile_cons_of_neg hp]
      exact okAux_mono (c :: rest) m 0 (Nat.zero_le m) h

theorem okAux_trimTrail (l : List Char) :
    ∀ m, okAux m l = true → okAux m (trimTrail l) = true := by
  induction l with
  | nil => intro m _; rfl
  | cons c rest ih =>
    intro m h
    rw [trimTrail_cons]
    by_cases he : ((trimTrail rest).isEmpty && isPySpace c) = true
    · rw [if_pos he]; rfl
    · rw [if_neg he]
      by_cases hc : c = '\n'
      · subst hc
        rw [okAux_cons_nl] at h ⊢
        simp only [Bool.and_eq_true] at h ⊢
        exact ⟨h.1, ih (m + 1) h.2⟩
      · rw [okAux_cons_other m c rest hc] at h
        rw [okAux_cons_other m c (trimTrail rest) hc]
        exact ih 0 h

theorem okAux_runRepl_append (n : Nat) (c : Char) (x : List Char) (h : ¬c = '\n') :
    okAux 0 (runRepl n ++ c :: x) = okAux 0 x := by
  by_cases h3 : 3 ≤ n
  · rw [show runRepl n = ['\n', '\n'] by simp [runRepl, h3]]
    rw [show (['\n', '\n'] ++ c :: x) = '\n' :: '\n' :: c :: x from rfl]
    rw [okAux_cons_nl, okAux_cons_nl, okAux_cons_other _ c x h]
    simp
  · have hn : n = 0 ∨ n = 1 ∨ n = 2 := by omega
    rcases hn with rfl | rfl | rfl
    · rw [show runRepl 0 = [] from rfl]
      rw [List.nil_append, okAux_cons_other 0 c x h]
    · rw [show runRepl 1 = ['\n'] from rfl]
      rw [show (['\n'] ++ c :: x) = '\n' :: c :: x from rfl]
      rw [okAux_cons_nl, okAux_cons_other _ c x h]
      simp
    · rw [show runRepl 2 = ['\n', '\n'] from rfl]
      rw [show (['\n', '\n'] ++ c :: x) = '\n' :: '\n' :: c :: x from rfl]
      rw [okAux_cons_nl, okAux_cons_nl, okAux_cons_other _ c x h]
      simp

theorem okAux_runRepl (n : Nat) : okAux 0 (runRepl n) = true := by
  by_cases h3 : 3 ≤ n
  · rw [show runRepl n = ['\n', '\n'] by simp [runRepl, h3]]
    decide
  · have hn : n = 0 ∨ n = 1 ∨ n = 2 := by omega
    rcases hn with rfl | rfl | rfl <;> decide

theorem okAux_collapseAux (l : List Char) : ∀ n, okAux 0 (collapseAux n l) = true := by
  induction l with
  | nil => intro n; simpa [collapseAux] using okAux_runRepl n
  | cons c rest ih =>
    intro n
    by_cases hc : c = '\n'
    · subst hc
      rw [collapseAux_cons_nl]
      exact ih (n + 1)
    · rw [collapseAux_cons_other n c rest hc, okAux_runRepl_append n c _ hc]
      exact ih 0

theorem collapseAux_eq_self (l : List Char) :
    ∀ n, n ≤ 2 → okAux n l = true → collapseAux n l = List.replicate n '\n' ++ l := by
  induction l with
  | nil =>
    intro n h2 _
    simp [collapseAux, runRepl, show ¬3 ≤ n by omega]
  | cons c rest ih =>
    intro n h2 h
    by_cases hc : c = '\n'
    · subst hc
      rw [okAux_cons_nl] at h
      simp only [Bool.and_eq_true, decide_eq_true_iff] at h
      rw [collapseAux_cons_nl, ih (n + 1) h.1 h.2, List.replicate_succ']
      simp
    · rw [okAux_cons_other n c rest hc] at h
      rw [collapseAux_cons_other n c rest hc, ih 0 (by omega) h]
      simp [runRepl, show ¬3 ≤ n by omega]

theorem collapseNewlines_eq_self (l : List Char) (h : okAux 0 l = true) :
    collapseNewlines l = l := by
  simpa [collapseNewlines] using collapseAux_eq_self l 0 (by omega) h

theorem mem_runRepl (a : Char) (n : Nat) (h : a ∈ runRepl n) : a = '\n' := by
  by_cases h3 : 3 ≤ n
  · rw [show runRepl n = ['\n', '\n'] by simp [runRepl, h3]] at h
    rcases List.mem_cons.mp h with h' | h'
    · exact h'
    · rcases List.mem_cons.mp h' with h'' | h''
      · exact h''
      · simp at h''
  · rw [show runRepl n = List.replicate n '\n' by simp [runRepl, h3]] at h
    exact List.eq_of_mem_replicate h

theorem mem_collapseAux (a : Char) (l : List Char) :
    ∀ n, a ∈ collapseAux n l → a = '\n' ∨ a ∈ l := by
  induction l with
  | nil =>
    intro n h
    simp only [collapseAux] at h
    exact Or.inl (mem_runRepl a n h)
  | cons c rest ih =>
    intro n h
    by_cases hc : c = '\n'
    · subst hc
      rw [collapseAux_cons_nl] at h
      rcases ih (n + 1) h with h' | h'
      · exact Or.inl h'
      · exact Or.inr (List.mem_cons_of_mem _ h')
    · rw [collapseAux_cons_other n c rest hc] at h
      rcases List.mem_append.mp h with h' | h'
      · exact Or.inl (mem_runRepl a n h')
      · rcases List.mem_cons.mp h' with h'' | h''
        · exact Or.inr (h'' ▸ List.mem_cons_self c rest)
        · rcases ih 0 h'' with h3 | h3
          · exact Or.inl h3
          · exact Or.inr (List.mem_cons_of_mem _ h3)

theorem mem_trimTrail (a : Char) (l : List Char) (h : a ∈ trimTrail l) : a ∈ l := by
  induction l with
  | nil => simp [trimTrail] at h
  | cons c rest ih =>
    rw [trimTrail_cons] at h
    by_cases he : ((trimTrail rest).isEmpty && isPySpace c) = true
    · rw [if_pos he] at h
      simp at h
    · rw [if_neg he] at h
      rcases List.mem_cons.mp h with h' | h'
      · exact h' ▸ List.mem_cons_self c rest
      · exact List.mem_cons_of_mem c (ih h')

theorem head_dropWhile_not (p : Char → Bool) (l : List Char) :
    ∀ c r, l.dropWhile p = c :: r → p c = false := by
  induction l with
  | nil => intro c r h; simp [List.dropWhile] at h
  | cons x xs ih =>
    intro c r h
    by_cases hp : p x
    · rw [List.dropWhile_cons_of_pos hp] at h
      exact ih c r h
    · rw [List.dropWhile_cons_of_neg hp] at h
      cases h
      simpa using hp

theorem trimTrail_head (l : List Char) (c : Char) (r : List Char)
    (h : trimTrail l = c :: r) : ∃ r0, l = c :: r0 := by
  cases l with
  | nil => simp [trimTrail] at h
  | cons x xs =>
    rw [trimTrail_cons] at h
    by_cases he : ((trimTrail xs).isEmpty && isPySpace x) = true
    · rw [if_pos he] at h
      cases h
    · rw [if_neg he] at h
      cases h
      exact ⟨xs, rfl⟩

theorem trimTrail_idem (l : List Char) : trimTrail (trimTrail l) = trimTrail l := by
  induction l with
  | nil => rfl
  | cons c rest ih =>
    rw [trimTrail_cons]
    by_cases he : ((trimTrail rest).isEmpty && isPySpace c) = true
    · rw [if_pos he]
      rfl
    · rw [if_neg he, trimTrail_cons, ih]
      rw [if_neg he]

theorem pyStripL_idem (l : List Char) : pyStripL (pyStripL l) = pyStripL l := by
  unfold pyStripL
  have hdw : (trimTrail (l.dropWhile isPySpace)).dropWhile isPySpace
      = trimTrail (l.dropWhile isPySpace) := by
    cases ht : trimTrail (l.dropWhile isPySpace) with
    | nil => rfl
    | cons c r =>
      obtain ⟨r0, hr0⟩ := trimTrail_head _ c r ht
      have hc : isPySpace c = false := head_dropWhile_not isPySpace l c r0 hr0
      rw [List.dropWhile_cons_of_neg (by simp [hc])]
  rw [hdw, trimTrail_idem]

theorem mem_pyStripL (a : Char) (l : List Char) (h : a ∈ pyStripL l) : a ∈ l := by
  unfold pyStripL at h
  exact (List.dropWhile_sublist isPySpace).subset (mem_trimTrail a _ h)

theorem okAux_pyStripL (l : List Char) (h : okAux 0 l = true) :
    okAux 0 (pyStripL l) = true :=
  okAux_trimTrail _ 0 (okAux_dropWhile isPySpace l 0 h)

theorem nv_ok_char (s t : String)
    (h : normalizeAndValidateLyrics (.str s) = .ok t) :
    t = normalizedForm s ∧ ¬(normalizedForm s).length = 0 ∧
      ¬20000 < (normalizedForm s).length := by
  simp only [normalizeAndValidateLyrics] at h
  by_cases h0 : (pyStripL (collapseNewlines (convertNewlines s.data))).length = 0
  · simp [h0] at h
  · by_cases h1 : 20000 < (pyStripL (collapseNewlines (convertNewlines s.data))).length
    · simp [h0, h1] at h
    · simp only [h0, h1, if_neg, ite_false] at h
      cases h
      refine ⟨rfl, ?_, ?_⟩
      · simpa [normalizedForm, String.length] using h0
      · simpa [normalizedForm, String.length] using h1

theorem normalizedForm_fixed (s : String) :
    normalizedForm (normalizedForm s) = normalizedForm s := by
  unfold normalizedForm
  set u := pyStripL (collapseNewlines (convertNewlines s.data)) with hu
  have hdata : (String.mk u).data = u := rfl
  rw [hdata]
  have hcr : '\r' ∉ u := by
    intro hm
    have h1 := mem_pyStripL '\r' _ hm
    rcases mem_collapseAux '\r' _ 0 h1 with h2 | h2
    · exact absurd h2 (by decide)
    · exact cr_not_mem_convertNewlines _ h2
  have e1 : convertNewlines u = u := convertNewlines_eq_self u hcr
  have hok : okAux 0 u = true :=
    okAux_pyStripL _ (okAux_collapseAux (convertNewlines s.data) 0)
  have e2 : collapseNewlines u = u := collapseNewlines_eq_self u hok
  rw [e1, e2, pyStripL_idem]

/-- C4: the normalizer is idempotent on every input it accepts: a
successful result is accepted unchanged by a second normalization pass. -/
theorem normalizer_idempotent (v : PyInput) (t : String)
    (h : normalizeAndValidateLyrics v = .ok t) :
    normalizeAndValidateLyrics (.str t) = .ok t := by
  cases v with
  | notStr => simp [normalizeAndValidateLyrics] at h
  | str s =>
    have ht : t = normalizedForm s := (nv_ok_char s t h).1
    have hlen0 : ¬(normalizedForm s).length = 0 := (nv_ok_char s t h).2.1
    have hlen1 : ¬20000 < (normalizedForm s).length := (nv_ok_char s t h).2.2
    subst ht
    have hfix : normalizedForm (normalizedForm s) = normalizedForm s :=
      normalizedForm_fixed s
    show normalizeAndValidateLyrics (.str (normalizedForm s)) = .ok (normalizedForm s)
    simp only [normalizeAndValidateLyrics]
    have hdat : pyStripL (collapseNewlines (convertNewlines (normalizedForm s).data))
        = (normalizedForm s).data := by
      have := congrArg String.data hfix
      simpa [normalizedForm] using this
    rw [hdat]
    simp only [String.length] at hlen0 hlen1
    rw [if_neg hlen0, if_neg hlen1]

/-- Witness for `normalizer_idempotent` at a concrete input. -/
theorem normalizer_idempotent_witness :
    normalizeAndValidateLyrics (.str "a\n\nb") = .ok "a\n\nb" :=
  normalizer_idempotent (.str "  a\n\n\n\n\nb\r") "a\n\nb" (by rfl)

/-! ## A JSON value model and a `json.loads`-style parser

Used by the embedding of the Gemini response handling in api.py
`_call_gemini_lyrics_meaning` (lines 130-156).  The parser mirrors the
strict behaviour of Python `json.loads` on the relevant points: JSON
whitespace only, trailing commas rejected, fenced or otherwise decorated
text rejected. -/

/-- JSON values; numbers keep their source lexeme. -/
inductive Json where
  | null
  | bool (b : Bool)
  | num (lexeme : String)
  | str (s : String)
  | arr (elems : List Json)
  | obj (members : List (String × Json))

/-- The left brace character. -/
def lbrace : Char := Char.ofNat 123

/-- The right brace character. -/
def rbrace : Char := Char.ofNat 125

/-- The backtick character. -/
def btick : Char := Char.ofNat 96

/-- JSON whitespace accepted by `json.loads` between tokens. -/
def jsonWs (c : Char) : Bool :=
  c = ' ' || c = '\t' || c = '\n' || c = '\r'

/-- Skip JSON whitespace. -/
def skipWs (l : List Char) : List Char :=
  l.dropWhile jsonWs

/-- Value of a hexadecimal digit. -/
def hexVal (c : Char) : Option Nat :=
  if c.isDigit then some (c.toNat - 48)
  else if 'a' ≤ c && c ≤ 'f' then some (c.toNat - 87)
  else if 'A' ≤ c && c ≤ 'F' then some (c.toNat - 55)
  else none

/-- Parse the body of a JSON string after the opening quote; `acc` holds the
decoded characters in reverse. -/
def parseStrBody : List Char → List Char → Option (String × List Char)
  | [], _ => none
  | c :: r, acc =>
    if c = '"' then some (String.mk acc.reverse, r)
    else if c = '\\' then
      match r with
      | [] => none
      | e :: r2 =>
        if e = '"' then parseStrBody r2 ('"' :: acc)
        else if e = '\\' then parseStrBody r2 ('\\' :: acc)
        else if e = '/' then parseStrBody r2 ('/' :: acc)
        else if e = 'b' then parseStrBody r2 ('\x08' :: acc)
        else if e = 'f' then parseStrBody r2 ('\x0c' :: acc)
        else if e = 'n' then parseStrBody r2 ('\n' :: acc)
        else if e = 'r' then parseStrBody r2 ('\r' :: acc)
        else if e = 't' then parseStrBody r2 ('\t' :: acc)
        else if e = 'u' then
          match r2 with
          | h1 :: h2 :: h3 :: h4 :: r3 =>
            match hexVal h1, hexVal h2, hexVal h3, hexVal h4 with
            | some v1, some v2, some v3, some v4 =>
              parseStrBody r3 (Char.ofNat (((v1 * 16 + v2) * 16 + v3) * 16 + v4) :: acc)
            | _, _, _, _ => none
          | _ => none
        else none
    else if c.toNat < 32 then none
    else parseStrBody r (c :: acc)

/-- Parse the exponent part of a JSON number, if present. -/
def parseExpPart (l : List Char) : Option (List Char × List Char) :=
  match l with
  | [] => some ([], [])
  | e :: r =>
    if e = 'e' || e = 'E' then
      let (sg, r2) : List Char × List Char :=
        match r with
        | '+' :: rr => (['+'], rr)
        | '-' :: rr => (['-'], rr)
        | _ => ([], r)
      let ds := r2.takeWhile Char.isDigit
      if ds.isEmpty then none
      else some (e :: (sg ++ ds), r2.dropWhile Char.isDigit)
    else some ([], l)

/-- Lex a JSON number: optional minus, integer part without leading zeros,
optional fraction, optional exponent. -/
def parseNumTok (l : List Char) : Option (Json × List Char) :=
  let (sign, l1) : List Char × List Char :=
    match l with
    | '-' :: r => (['-'], r)
    | _ => ([], l)
  let intDs := l1.takeWhile Char.isDigit
  let r1 := l1.dropWhile Char.isDigit
  if intDs.isEmpty then none
  else if 1 < intDs.length && intDs.headD ' ' = '0' then none
  else
    let (fracDs, r2) : List Char × List Char :=
      match r1 with
      | '.' :: rf => ('.' :: rf.takeWhile Char.isDigit, rf.dropWhile Char.isDigit)
      | _ => ([], r1)
    if fracDs = ['.'] then none
    else
      match parseExpPart r2 with
      | none => none
      | some (expDs, r3) =>
        some (Json.num (String.mk (sign ++ intDs ++ fracDs ++ expDs)), r3)

/-- Parser mode: a value, the continuation of an array after its first
element, or the continuation of an object. -/
inductive PMode where
  | val
  | arrCont (acc : List Json)
  | objCont (acc : List (String × Json))

/-- Fuel-indexed recursive-descent parser for JSON values. -/
def parseRun : Nat → PMode → List Char → Option (Json × List Char)
  | 0, _, _ => none
  | f + 1, .val, l =>
    match skipWs l with
    | [] => none
    | c :: r =>
      if c = 'n' then
        if startsWithL ['u', 'l', 'l'] r then some (.null, r.drop 3) else none
      else if c = 't' then
        if startsWithL ['r', 'u', 'e'] r then some (.bool true, r.drop 3) else none
      else if c = 'f' then
        if startsWithL ['a', 'l', 's', 'e'] r then some (.bool false, r.drop 4) else none
      else if c = '"' then
        (parseStrBody r []).map fun p => (Json.str p.1, p.2)
      else if c = '[' then
        match skipWs r with
        | ']' :: r2 => some (.arr [], r2)
        | r' => parseRun f (.arrCont []) r'
      else if c = lbrace then
        match skipWs r with
        | [] => none
        | c2 :: r2 =>
          if c2 = rbrace then some (.obj [], r2)
          else parseRun f (.objCont []) (c2 :: r2)
      else if c = '-' || c.isDigit then parseNumTok (c :: r)
      else none
  | f + 1, .arrCont acc, l =>
    match parseRun f .val l with
    | none => none
    | some (v, r) =>
      match skipWs r with
      | ',' :: r2 => parseRun f (.arrCont (acc ++ [v])) r2
      | ']' :: r2 => some (.arr (acc ++ [v]), r2)
      | _ => none
  | f + 1, .objCont acc, l =>
    match skipWs l with
    | [] => none
    | c :: r =>
      if c = '"' then
        match parseStrBody r [] with
        | none => none
        | some (k, r2) =>
          match skipWs r2 with
          | ':' :: r3 =>
            match parseRun f .val r3 with
            | none => none
            | some (v, r4) =>
              match skipWs r4 with
              | [] => none
              | c5 :: r5 =>
                if c5 = ',' then parseRun f (.objCont (acc ++ [(k, v)])) r5
                else if c5 = rbrace then some (.obj (acc ++ [(k, v)]), r5)
                else none
          | _ => none
      else none

/-- Python `json.loads` on a character list: parse one value and require
only whitespace after it. -/
def jsonParseL (l : List Char) : Option Json :=
  match parseRun (2 * l.length + 2) .val l with
  | some (v, rest) => if (skipWs rest).isEmpty then some v else none
  | none => none

/-! ## Gemini response sanitizing and parsing, api.py lines 130-156 -/

/-- Python `cleaned.startswith('```')`. -/
def fencedL (l : List Char) : Bool :=
  match l with
  | c1 :: c2 :: c3 :: _ => c1 = btick && c2 = btick && c3 = btick
  | _ => false

/-- Python `cleaned.endswith('```')`. -/
def endsWithFence (l : List Char) : Bool :=
  fencedL l.reverse

/-- ASCII letter, the `[a-zA-Z]` class. -/
def isAsciiLetter (c : Char) : Bool :=
  ('a' ≤ c && c ≤ 'z') || ('A' ≤ c && c ≤ 'Z')

/-- The fence-stripping branch of api.py lines 136-139:
`re.sub(r"^```[a-zA-Z]*", "", cleaned).strip()`, then if the result still
ends with a fence, drop the last three characters and strip again. -/
def stripFenceL (l : List Char) : List Char :=
  let l1 := pyStripL ((l.drop 3).dropWhile isAsciiLetter)
  if endsWithFence l1 then pyStripL (l1.take (l1.length - 3)) else l1

/-- Fuel-indexed worker for `re.sub(r",\s*([}\]])", r"\1", cleaned)`:
drop a comma (and the whitespace after it) when it directly precedes a
closing bracket or brace, scanning left to right. -/
def stripTCAux : Nat → List Char → List Char
  | 0, l => l
  | _ + 1, [] => []
  | f + 1, c :: rest =>
    if c = ',' then
      match rest.dropWhile isPySpace with
      | b :: rest2 =>
        if b = ']' || b = rbrace then b :: stripTCAux f rest2
        else ',' :: stripTCAux f rest
      | [] => ',' :: stripTCAux f rest
    else c :: stripTCAux f rest

/-- Python `re.sub(r",\s*([}\]])", r"\1", cleaned)`. -/
def stripTrailingCommasL (l : List Char) : List Char :=
  stripTCAux (l.length + 1) l

/-- The errors the generator can raise, one constructor per `raise` site
of api.py `_call_gemini_lyrics_meaning` and `_configure_gemini`. -/
inductive GemErr where
  | configError (msg : String)
  | uncaughtTransport (msg : String)
  | quotaExceeded
  | rateLimited
  | apiError (msg : String)
  | emptyResponse
  | invalidJson
  | missingLyricsMeaning
  | lyricsMeaningNotArray
deriving DecidableEq

/-- Lookup in a parsed JSON object; later duplicate keys win, as in the
dict built by `json.loads`. -/
def lookupLast (kvs : List (String × Json)) (k : String) : Option Json :=
  match kvs with
  | [] => none
  | (k', v) :: rest =>
    match lookupLast rest k with
    | some w => some w
    | none => if k' = k then some v else none

/-- The post-parse checks of api.py lines 151-155: the payload must be a
dict containing key `lyricsMeaning`, and that key must hold a list. -/
def checkPayload (payload : Json) : Except GemErr Json :=
  match payload with
  | .obj kvs =>
    match lookupLast kvs "lyricsMeaning" with
    | none => .error .missingLyricsMeaning
    | some v =>
      match v with
      | .arr _ => .ok payload
      | _ => .error .lyricsMeaningNotArray
  | _ => .error .missingLyricsMeaning

/-- The sanitized text the code parses: strip, then remove a markdown
fence when one is present. -/
def codeCleaned (text : String) : List Char :=
  if fencedL (pyStripL text.data) then stripFenceL (pyStripL text.data)
  else pyStripL text.data

/-- api.py lines 134-156: sanitize the response text, parse it as JSON,
on failure strip trailing commas and parse once more, then apply the
schema checks. -/
def parseGeminiText (text : String) : Except GemErr Json :=
  match jsonParseL (codeCleaned text) with
  | some payload => checkPayload payload
  | none =>
    match jsonParseL (stripTrailingCommasL (codeCleaned text)) with
    | some payload => checkPayload payload
    | none => .error .invalidJson

/-- The parsing policy in the order the spec words it: parse the stripped
raw text first, strip the fence only if that failed and the text is
fenced, then attempt the trailing-comma repair once. -/
def specOrderParse (text : String) : Except GemErr Json :=
  match jsonParseL (pyStripL text.data) with
  | some payload => checkPayload payload
  | none =>
    match jsonParseL (codeCleaned text) with
    | some payload => checkPayload payload
    | none =>
      match jsonParseL (stripTrailingCommasL (codeCleaned text)) with
      | some payload => checkPayload payload
      | none => .error .invalidJson

theorem parseRun_btick (f : Nat) (r : List Char) :
    parseRun (f + 1) .val (btick :: r) = none := by
  have hskip : skipWs (btick :: r) = btick :: r := by
    rw [skipWs, List.dropWhile_cons]
    simp [show jsonWs btick = false from rfl]
  rw [parseRun, hskip]
  rfl

theorem jsonParseL_btick (r : List Char) : jsonParseL (btick :: r) = none := by
  unfold jsonParseL
  rw [show 2 * (btick :: r).length + 2 = (2 * (btick :: r).length + 1) + 1 from rfl]
  rw [parseRun_btick]

/-- Bool form of "the payload is an object containing a `lyricsMeaning`
array". -/
def schemaOk (j : Json) : Bool :=
  match j with
  | .obj kvs =>
    match lookupLast kvs "lyricsMeaning" with
    | some (.arr _) => true
    | _ => false
  | _ => false

theorem fencedL_parse_none (l : List Char) (hf : fencedL l = true) :
    jsonParseL l = none := by
  rcases l with _ | ⟨c1, _ | ⟨c2, _ | ⟨c3, r⟩⟩⟩
  · simp [fencedL] at hf
  · simp [fencedL] at hf
  · simp [fencedL] at hf
  · simp only [fencedL, Bool.and_eq_true, decide_eq_true_iff] at hf
    rw [hf.1.1]
    exact jsonParseL_btick _

theorem gemini_parse_spec_order_eq (text : String) :
    parseGeminiText text = specOrderParse text := by
  unfold parseGeminiText specOrderParse
  by_cases hf : fencedL (pyStripL text.data) = true
  · rw [fencedL_parse_none _ hf]
  · have he : codeCleaned text = pyStripL text.data := by
      unfold codeCleaned
      rw [if_neg hf]
    rw [he]
    cases hj : jsonParseL (pyStripL text.data) with
    | none => rfl
    | some p => rfl

theorem checkPayload_schema (payload : Json) :
    (schemaOk payload = false → isErr (checkPayload payload) = true) ∧
    (schemaOk payload = true → checkPayload payload = .ok payload) := by
  cases payload with
  | obj kvs =>
    rcases hlk : lookupLast kvs "lyricsMeaning" with _ | v
    · constructor <;> intro h <;> simp_all [schemaOk, checkPayload, isErr]
    · cases v <;> constructor <;> intro h <;> simp_all [schemaOk, checkPayload, isErr]
  | null => exact ⟨fun _ => rfl, fun h => by simp [schemaOk] at h⟩
  | bool b => exact ⟨fun _ => rfl, fun h => by simp [schemaOk] at h⟩
  | num x => exact ⟨fun _ => rfl, fun h => by simp [schemaOk] at h⟩
  | str s => exact ⟨fun _ => rfl, fun h => by simp [schemaOk] at h⟩
  | arr xs => exact ⟨fun _ => rfl, fun h => by simp [schemaOk] at h⟩

/-- A model response wrapped in a markdown code fence. -/
def fencedResponse : String :=
  "```json\n" ++ "\x7b" ++ "\"lyricsMeaning\": []" ++ "\x7d" ++ "\n```"

/-- A model response with a trailing comma before the closing brace. -/
def trailingCommaResponse : String :=
  "\x7b" ++ "\"songId\": null, \"lyricsMeaning\": [1, 2],  " ++ "\x7d"

set_option maxRecDepth 8000 in
/-- C5: the response parsing behaves as the ordered policy parse / strip
fence and reparse / strip trailing commas and reparse once; a remaining
failure is the invalid-JSON error; a parsed payload that is not an object
with a `lyricsMeaning` array is a schema error, otherwise it is returned;
a fenced response and a trailing-comma response both parse. -/
theorem gemini_parse_repair_policy :
    (∀ text : String, parseGeminiText text = specOrderParse text) ∧
    (∀ text : String, jsonParseL (codeCleaned text) = none →
      jsonParseL (stripTrailingCommasL (codeCleaned text)) = none →
      parseGeminiText text = .error .invalidJson) ∧
    (∀ (text : String) (payload : Json), jsonParseL (codeCleaned text) = some payload →
      parseGeminiText text = checkPayload payload) ∧
    (∀ payload : Json, schemaOk payload = false → isErr (checkPayload payload) = true) ∧
    (∀ payload : Json, schemaOk payload = true → checkPayload payload = .ok payload) ∧
    parseGeminiText fencedResponse = .ok (Json.obj [("lyricsMeaning", Json.arr [])]) ∧
    parseGeminiText trailingCommaResponse =
      .ok (Json.obj [("songId", Json.null),
        ("lyricsMeaning", Json.arr [Json.num "1", Json.num "2"])]) := by
  refine ⟨gemini_parse_spec_order_eq, ?_, ?_, ?_, ?_, ?_, ?_⟩
  · intro text h1 h2
    unfold parseGeminiText
    rw [h1, h2]
  · intro text payload h
    unfold parseGeminiText
    rw [h]
  · intro payload h
    exact (checkPayload_schema payload).1 h
  · intro payload h
    exact (checkPayload_schema payload).2 h
  · rfl
  · rfl

/-- Witness for `gemini_parse_repair_policy` at a concrete unparsable
response. -/
theorem gemini_parse_repair_policy_witness :
    parseGeminiText "hello" = .error .invalidJson :=
  gemini_parse_repair_policy.2.1 "hello" (by rfl) (by rfl)

/-! ## The Gemini call, api.py `_call_gemini_lyrics_meaning` (lines 63-156)

The generative model is an oracle mapping the invocation index to its
outcome: a raised transport exception or a response whose `text`
attribute may be missing.  Prompt construction (pure string assembly
fed to the oracle) is folded into the oracle argument.  The function
returns the parsed payload or the raised error, together with the
number of `model.generate_content` invocations performed. -/

/-- Outcome of one `model.generate_content` invocation. -/
inductive GenCall where
  | raised (msg : String)
  | ok (text : Option String)

/-- The `except` classification of api.py lines 121-128: quota or 429
first, then rate, then a generic API error. -/
def classifyGenErr (msg : String) : GemErr :=
  if hasSub "quota".data (lowerL msg.data) || hasSub "429".data msg.data then
    .quotaExceeded
  else if hasSub "rate".data (lowerL msg.data) then .rateLimited
  else .apiError msg

/-- api.py `_call_gemini_lyrics_meaning`: configure, invoke the model at
line 101 outside any try (its exception propagates raw and its response
is discarded), invoke it AGAIN at line 112 inside the try, then parse
the second response.  The second component counts invocations. -/
def callGeminiLyricsMeaning (cfg : Except String Unit) (model : Nat → GenCall) :
    Except GemErr Json × Nat :=
  match cfg with
  | .error m => (.error (.configError m), 0)
  | .ok _ =>
    match model 0 with
    | .raised m => (.error (.uncaughtTransport m), 1)
    | .ok _ =>
      match model 1 with
      | .raised m => (.error (classifyGenErr m), 2)
      | .ok otext =>
        match otext with
        | none => (.error .emptyResponse, 2)
        | some t =>
          if t.isEmpty then (.error .emptyResponse, 2) else (parseGeminiText t, 2)

/-- C1 (code bug): whenever configuration succeeds and the first
invocation does not raise, the generator performs exactly TWO model
invocations in one call, not one: the call at api.py line 101 is
duplicated by the call at line 112 and its response is discarded. -/
theorem gemini_double_invocation (model : Nat → GenCall) (t : Option String)
    (h : model 0 = GenCall.ok t) :
    (callGeminiLyricsMeaning (.ok ()) model).2 = 2 := by
  unfold callGeminiLyricsMeaning
  rw [h]
  cases hm : model 1 with
  | raised m => rfl
  | ok otext =>
    cases otext with
    | none => rfl
    | some s => by_cases hs : s.isEmpty <;> simp [hs]

/-- Witness for `gemini_double_invocation`: a concrete model oracle that
answers every invocation with valid JSON still gets invoked twice. -/
theorem gemini_double_invocation_witness :
    (callGeminiLyricsMeaning (.ok ())
      (fun _ => GenCall.ok (some "null"))).2 = 2 :=
  gemini_double_invocation (fun _ => GenCall.ok (some "null")) (some "null") rfl

/-! ## The Supabase cache, api.py `_get_cached_meaning_from_supabase`
and `_upsert_meaning_into_supabase` (lines 159-207)

`get_supabase_client` (core/supabase_client.py) raising — package not
installed, or `SUPABASE_URL` / key environment variables unset — is the
`client` field being an error.  Executing a built query against the
backing store is the `exec` oracle; each returned row carries its
`payload` column (absent or SQL `NULL` is `none`). -/

/-- The three query shapes built by lines 176-181, in precedence order. -/
inductive CacheQuery where
  | bySongId (sid : String)
  | byTitleArtist (t a : String)
  | byTitle (t : String)
deriving DecidableEq

/-- The cache backend as seen by api.py. -/
structure CacheEnv where
  client : Except String Unit
  exec : CacheQuery → Except String (List (Option Json))

/-- Python truthiness of an optional string (`if song_id:`). -/
def truthyStr : Option String → Option String
  | some s => if s.isEmpty then none else some s
  | none => none

/-- Python truthiness of a decoded JSON value (`if cached:`). -/
def jsonTruthy : Json → Bool
  | .null => false
  | .bool b => b
  | .num lex => ((lex.data.takeWhile fun c => ¬(c = 'e' || c = 'E')).filter
      fun c => c.isDigit && ¬c = '0').length ≠ 0
  | .str s => ¬s.isEmpty
  | .arr xs => ¬xs.isEmpty
  | .obj kvs => ¬kvs.isEmpty

/-- Lines 185-189: `query.execute()` is NOT inside the try, so an
executing-time failure propagates; `if getattr(resp, "data", None):`
takes the first row and returns its payload, else `None`. -/
def runQuery (env : CacheEnv) (q : CacheQuery) : Except String (Option Json) :=
  match env.exec q with
  | .error e => .error e
  | .ok rows =>
    match rows with
    | row :: _ => .ok row
    | [] => .ok none

/-- api.py `_get_cached_meaning_from_supabase`. -/
def getCachedMeaningFromSupabase (env : CacheEnv)
    (songId title artist : Option String) : Except String (Option Json) :=
  match env.client with
  | .error _ => .ok none
  | .ok _ =>
    match truthyStr songId with
    | some sid => runQuery env (.bySongId sid)
    | none =>
      match truthyStr title, truthyStr artist with
      | some t, some a => runQuery env (.byTitleArtist t a)
      | _, _ =>
        match truthyStr title with
        | some t => runQuery env (.byTitle t)
        | none => .ok none

/-- api.py `_upsert_meaning_into_supabase`: a client-construction failure
returns `False`; a failure of the upsert `execute()` itself propagates
(the route call sites wrap this call in try/except pass). -/
def upsertMeaningIntoSupabase (env : CacheEnv) (upsertExec : Except String Unit) :
    Except String Bool :=
  match env.client with
  | .error _ => .ok false
  | .ok _ =>
    match upsertExec with
    | .error e => .error e
    | .ok _ => .ok true

/-! ## The extractor, core/working_lyrics_extractor.py

A fetched page is seen by the code only through four BeautifulSoup
queries; each is an oracle field that either yields the text content the
query would produce or raises.  The `<br>`-to-newline rewriting of the
Genius container loop (lines 105-107) is folded into the oracle text.
A strategy whose oracle raises returns `None`, mirroring its internal
try/except. -/

/-- A candidate page as observed by the three scraping strategies. -/
structure Page where
  /-- Text of `soup.select_one('.lyrics')` when the node exists. -/
  selLyrics : Except Unit (Option String)
  /-- Texts of `soup.select('div[class*="Lyrics__Container"]')`. -/
  selContainers : Except Unit (List String)
  /-- Element texts per CSS selector, in the fixed order of lines 121-128. -/
  selSelectors : List (Except Unit (List String))
  /-- Texts of `soup.find_all(['p', 'div', 'span'])`. -/
  allBlocks : Except Unit (List String)

/-- Method 1 of `_try_genius_scraper`: the `.lyrics` node text, stripped,
kept only above 100 characters. -/
def geniusMethodOne : Option String → Option String
  | some t => if 100 < (pyStrip t).length then some (pyStrip t) else none
  | none => none

/-- `_try_genius_scraper` (lines 90-115): the `.lyrics` node, else the
concatenated `Lyrics__Container` texts, each accepted above 100
characters; any exception yields `None`. -/
def tryGeniusScraper (p : Page) : Option String :=
  match p.selLyrics with
  | .error _ => none
  | .ok olyr =>
    match geniusMethodOne olyr with
    | some s => some s
    | none =>
      match p.selContainers with
      | .error _ => none
      | .ok conts =>
        if conts.isEmpty then none
        else if 100 < (pyStrip (String.join conts)).length then
          some (pyStrip (String.join conts))
        else none

/-- The selector loop of `_try_lyrics_site_scraper` (lines 117-143): for
each selector with a nonempty result, join the stripped element texts
with blank lines; return the first such join whose strip exceeds 100
characters. -/
def tryLyricsSiteLoop : List (Except Unit (List String)) → Option String
  | [] => none
  | .error _ :: _ => none
  | .ok elems :: rest =>
    if elems.isEmpty then tryLyricsSiteLoop rest
    else if 100 < (pyStrip (String.join (elems.map fun e => pyStrip e ++ "\n\n"))).length then
      some (pyStrip (String.join (elems.map fun e => pyStrip e ++ "\n\n")))
    else tryLyricsSiteLoop rest

/-- `_try_lyrics_site_scraper`. -/
def tryLyricsSiteScraper (p : Page) : Option String :=
  tryLyricsSiteLoop p.selSelectors

/-- Greedy `\s*\n` prefix matcher used by `re.sub(r'\n\s*\n', '\n\n', t)`:
returns the remainder after the last newline reachable through
whitespace, when one exists. -/
def matchBlankRun : List Char → Option (List Char)
  | [] => none
  | c :: rest =>
    if c = '\n' then some ((matchBlankRun rest).getD rest)
    else if isPySpace c then matchBlankRun rest
    else none

theorem matchBlankRun_length (l : List Char) :
    ∀ r, matchBlankRun l = some r → r.length < l.length := by
  induction l with
  | nil => intro r h; simp [matchBlankRun] at h
  | cons c rest ih =>
    intro r h
    simp only [matchBlankRun] at h
    by_cases hc : c = '\n'
    · rw [if_pos hc] at h
      cases h
      cases hm : matchBlankRun rest with
      | none => simp [hm]
      | some r2 =>
        have := ih r2 hm
        simp only [hm, Option.getD_some, List.length_cons]
        omega
    · rw [if_neg hc] at h
      by_cases hw : isPySpace c = true
      · rw [if_pos hw] at h
        have := ih r h
        simp only [List.length_cons]
        omega
      · simp [hw] at h

/-- Fuel-indexed worker for `re.sub(r'\n\s*\n', '\n\n', t)`: each maximal
blank-line run collapses to one blank line, scanning left to right. -/
def collapseBlankAux : Nat → List Char → List Char
  | 0, l => l
  | _ + 1, [] => []
  | f + 1, c :: rest =>
    if c = '\n' then
      match matchBlankRun rest with
      | some rem => '\n' :: '\n' :: collapseBlankAux f rem
      | none => '\n' :: collapseBlankAux f rest
    else c :: collapseBlankAux f rest

/-- Python `re.sub(r'\n\s*\n', '\n\n', t)` (line 161). -/
def collapseBlankL (l : List Char) : List Char :=
  collapseBlankAux (l.length + 1) l

/-- Fuel-indexed worker for `re.sub(r'\[.*?\]', '', t)`: at each opening
bracket, remove up to the first closing bracket not separated by a
newline; otherwise keep scanning. -/
def stripBrAux : Nat → List Char → List Char
  | 0, l => l
  | _ + 1, [] => []
  | f + 1, c :: rest =>
    if c = '[' then
      match rest.dropWhile (fun x => ¬(x = ']' || x = '\n')) with
      | ']' :: rest2 => stripBrAux f rest2
      | _ => '[' :: stripBrAux f rest
    else c :: stripBrAux f rest

/-- Python `re.sub(r'\[.*?\]', '', t)` (line 162). -/
def stripBracketsL (l : List Char) : List Char :=
  stripBrAux (l.length + 1) l

/-- The cleanup of lines 161-164 in the order the code applies it: collapse blank-line runs, then remove bracketed markers, then strip. -/
def genericClean (text : List Char) : List Char :=
  pyStripL (stripBracketsL (collapseBlankL text))

/-- The blocklist of `_try_generic_scraper`. -/
def blockWords : List (List Char) :=
  ["copyright".data, "privacy".data, "terms".data, "advertisement".data]

/-- Python `any(word in text.lower() for word in [...])`. -/
def hasBlockword (l : List Char) : Bool :=
  blockWords.any fun w => hasSub w l

/-- Python `text.count('\n')`. -/
def countNl (l : List Char) : Nat :=
  l.count '\n'

/-- The selection condition of lines 156-158 on the stripped block text. -/
def qualifiesBlock (b : String) : Bool :=
  decide (200 < (pyStripL b.data).length) &&
  decide (10 < countNl (pyStripL b.data)) &&
  !hasBlockword (lowerL (pyStripL b.data))

/-- The block loop of `_try_generic_scraper` (lines 150-166). -/
def genericScan : List String → Option String
  | [] => none
  | b :: rest =>
    if qualifiesBlock b then some ⟨genericClean (pyStripL b.data)⟩
    else genericScan rest

/-- `_try_generic_scraper`. -/
def tryGenericScraper (p : Page) : Option String :=
  match p.allBlocks with
  | .error _ => none
  | .ok blocks => genericScan blocks

/-- Python truthiness of a strategy result (`if lyrics:`). -/
def truthyOpt : Option String → Option String
  | some s => if s.data.isEmpty then none else some s
  | none => none

/-- `_extract_lyrics_from_url` (lines 57-88) after the fetch: the three
strategies in order, first truthy result wins; a fetch or parse failure
yields `None`. -/
def extractLyricsFromUrl (fetched : Except Unit Page) : Option String :=
  match fetched with
  | .error _ => none
  | .ok p =>
    match truthyOpt (tryGeniusScraper p) with
    | some l => some l
    | none =>
      match truthyOpt (tryLyricsSiteScraper p) with
      | some l => some l
      | none => truthyOpt (tryGenericScraper p)

/-- One search result item (`{'link': ..., 'title': ...}`). -/
structure SearchItem where
  link : String
  title : String
deriving DecidableEq

/-- The `spelling` object of a search response. -/
structure SpellingInfo where
  correctedQuery : Option String
deriving DecidableEq

/-- A decoded search response: the optional `spelling` object and the
optional `items` key. -/
structure SearchData where
  spelling : Option SpellingInfo
  items : Option (List SearchItem)
deriving DecidableEq

/-- Outcome of one `requests.get(...)` search round trip as observed by
`_search_for_lyrics`: a `RequestException` (including a bad status), a
JSON decode failure, or a decoded body. -/
inductive HttpOutcome where
  | reqError (msg : String)
  | badJson (msg : String)
  | ok (d : SearchData)
deriving DecidableEq

/-- `_search_for_lyrics` (lines 22-55): issue the query, and when the
response carries `spelling.correctedQuery` issue exactly one more query
with the corrected text and keep only its results.  The second component
records every query string sent, in order. -/
def searchAfterFirst (http : String → HttpOutcome) (songName : String)
    (d : SearchData) : Except String SearchData × List String :=
  match d.spelling with
  | none => (.ok d, [songName ++ " lyrics"])
  | some sp =>
    match sp.correctedQuery with
    | none => (.ok d, [songName ++ " lyrics"])
    | some c =>
      match http (c ++ " lyrics") with
      | .reqError m =>
        (.error ("Search request failed: " ++ m), [songName ++ " lyrics", c ++ " lyrics"])
      | .badJson m =>
        (.error ("Invalid JSON response: " ++ m), [songName ++ " lyrics", c ++ " lyrics"])
      | .ok d2 => (.ok d2, [songName ++ " lyrics", c ++ " lyrics"])

/-- `_search_for_lyrics`, the first round trip. -/
def searchForLyrics (http : String → HttpOutcome) (songName : String) :
    Except String SearchData × List String :=
  match http (songName ++ " lyrics") with
  | .reqError m => (.error ("Search request failed: " ++ m), [songName ++ " lyrics"])
  | .badJson m => (.error ("Invalid JSON response: " ++ m), [songName ++ " lyrics"])
  | .ok d => searchAfterFirst http songName d

/-- The result dict of `get_lyrics`. -/
structure LyricsDoc where
  title : String
  lyrics : String
deriving DecidableEq

/-- The candidate loop of `get_lyrics` (lines 195-213): fetch and run the
cascade on each item in order, skipping items that fail, and return the
item title with the first truthy extraction. -/
def getLyricsLoop (fetch : String → Except Unit Page) :
    List SearchItem → Except String LyricsDoc
  | [] => .error "Could not extract lyrics from any search result"
  | it :: rest =>
    match extractLyricsFromUrl (fetch it.link) with
    | some l =>
      if l.data.isEmpty then getLyricsLoop fetch rest else .ok ⟨it.title, l⟩
    | none => getLyricsLoop fetch rest

/-- The body of `get_lyrics` after the search: lines 189-213.  The
`'items' not in search_data or not search_data['items']` guard, then the
candidate loop. -/
def getLyricsResult (fetch : String → Except Unit Page) (d : SearchData) :
    Except String LyricsDoc :=
  match d.items with
  | none => .error "No search results found"
  | some [] => .error "No search results found"
  | some (it :: rest) => getLyricsLoop fetch (it :: rest)

/-- `get_lyrics` (lines 171-213).  The trace component carries the search
queries issued on behalf of this call. -/
def getLyrics (http : String → HttpOutcome) (fetch : String → Except Unit Page)
    (songName : String) : Except String LyricsDoc × List String :=
  match searchForLyrics http songName with
  | (.error e, tr) => (.error e, tr)
  | (.ok d, tr) => (getLyricsResult fetch d, tr)

/-! ## Theorems about the extraction strategies and the orchestrator -/

/-- A text-bearing block (a page element text for the generic strategy):
eleven long lines around a bracketed section marker and a blank line. -/
def blockC6 : String :=
  "aaaaaaaaaaaaaaaaaaaaaaaaa\naaaaaaaaaaaaaaaaaaaaaaaaa\naaaaaaaaaaaaaaaaaaaaaaaaa\naaaaaaaaaaaaaaaaaaaaaaaaa\naaaaaaaaaaaaaaaaaaaaaaaaa\n[chorus]\n\naaaaaaaaaaaaaaaaaaaaaaaaa\naaaaaaaaaaaaaaaaaaaaaaaaa\naaaaaaaaaaaaaaaaaaaaaaaaa\naaaaaaaaaaaaaaaaaaaaaaaaa\naaaaaaaaaaaaaaaaaaaaaaaaa\naaaaaaaaaaaaaaaaaaaaaaaaa"

set_option maxRecDepth 100000 in
/-- C6 (counterexample): a qualifying block on which the generic strategy
returns text still containing a run of two consecutive blank lines —
the code collapses blank lines BEFORE removing bracketed markers, so
marker removal can reintroduce an uncollapsed blank-line run, against
the claimed "strips bracketed section markers and collapses multiple
blank lines to one". -/
theorem generic_scraper_blank_lines_counterexample :
    (genericScan [blockC6]).isSome = true ∧
    hasSub "\n\n\n".data ((genericScan [blockC6]).getD "").data = true :=
  ⟨by rfl, by decide⟩

/-- C6 (amended): the generic strategy returns, for the first block whose
stripped text is longer than 200 characters with more than 10 newlines
and no blocklist word, the stripped text cleaned by collapsing blank-line
runs and THEN removing bracketed markers; `none` when no block qualifies
or the element query raises. -/
theorem generic_scraper_contract :
    (∀ blocks : List String,
      genericScan blocks =
        (blocks.find? qualifiesBlock).map fun b =>
          (⟨genericClean (pyStripL b.data)⟩ : String)) ∧
    (∀ p : Page, p.allBlocks = .error () → tryGenericScraper p = none) ∧
    (∀ (p : Page) (blocks : List String), p.allBlocks = .ok blocks →
      tryGenericScraper p = genericScan blocks) := by
  refine ⟨?_, ?_, ?_⟩
  · intro blocks
    induction blocks with
    | nil => rfl
    | cons b rest ih =>
      by_cases hq : qualifiesBlock b = true
      · simp [genericScan, hq, List.find?_cons_of_pos _ hq]
      · simp only [genericScan, hq, Bool.false_eq_true, ite_false]
        rw [List.find?_cons_of_neg _ (by simp [hq])]
        exact ih
  · intro p h
    unfold tryGenericScraper
    rw [h]
  · intro p blocks h
    unfold tryGenericScraper
    rw [h]

/-- Witness for `generic_scraper_contract` at a concrete page. -/
theorem generic_scraper_contract_witness :
    tryGenericScraper ⟨.ok none, .ok [], [], .ok [blockC6]⟩ = genericScan [blockC6] :=
  generic_scraper_contract.2.2 ⟨.ok none, .ok [], [], .ok [blockC6]⟩ [blockC6] rfl

theorem geniusMethodOne_length (o : Option String) (s : String)
    (h : geniusMethodOne o = some s) : 100 < s.length := by
  cases o with
  | none => simp [geniusMethodOne] at h
  | some t =>
    simp only [geniusMethodOne] at h
    by_cases hl : 100 < (pyStrip t).length
    · rw [if_pos hl] at h
      cases h
      exact hl
    · rw [if_neg hl] at h
      simp at h

theorem tryGeniusScraper_length (p : Page) (l : String)
    (h : tryGeniusScraper p = some l) : 100 < l.length := by
  unfold tryGeniusScraper at h
  cases hsel : p.selLyrics with
  | error u =>
    simp only [hsel] at h
    simp at h
  | ok olyr =>
    simp only [hsel] at h
    cases hm : geniusMethodOne olyr with
    | some s =>
      simp only [hm, Option.some.injEq] at h
      rw [← h]
      exact geniusMethodOne_length olyr s hm
    | none =>
      simp only [hm] at h
      cases hc : p.selContainers with
      | error u =>
        simp only [hc] at h
        simp at h
      | ok conts =>
        simp only [hc] at h
        by_cases he : conts.isEmpty = true
        · rw [if_pos he] at h; simp at h
        · rw [if_neg he] at h
          by_cases hl : 100 < (pyStrip (String.join conts)).length
          · rw [if_pos hl] at h
            cases h
            exact hl
          · rw [if_neg hl] at h; simp at h

theorem nonempty_of_long (l : String) (h : 100 < l.length) :
    l.data.isEmpty = false := by
  have hlen : l.data.length = l.length := rfl
  cases hd : l.data with
  | nil =>
    exfalso
    rw [hd] at hlen
    simp at hlen
    omega
  | cons a as => rfl

/-- C7: the cascade runs the structured-container strategy, then the
paragraph-selector strategy, then the generic strategy, first truthy
result short-circuiting; a structured-container result (always above 100
characters) is returned regardless of the other strategies; a strategy
raising (its soup query erroring) is a miss that cascades to the next
strategy; a failed fetch yields `None`. -/
theorem extraction_cascade_contract :
    (∀ p : Page, extractLyricsFromUrl (.ok p) =
      match truthyOpt (tryGeniusScraper p) with
      | some l => some l
      | none =>
        match truthyOpt (tryLyricsSiteScraper p) with
        | some l => some l
        | none => truthyOpt (tryGenericScraper p)) ∧
    (∀ (p : Page) (l : String), tryGeniusScraper p = some l → 100 < l.length) ∧
    (∀ (p : Page) (l : String), tryGeniusScraper p = some l →
      extractLyricsFromUrl (.ok p) = some l) ∧
    (∀ p : Page, p.selLyrics = .error () → tryGeniusScraper p = none) ∧
    (∀ p : Page, tryGeniusScraper p = none →
      extractLyricsFromUrl (.ok p) =
        match truthyOpt (tryLyricsSiteScraper p) with
        | some l => some l
        | none => truthyOpt (tryGenericScraper p)) ∧
    extractLyricsFromUrl (.error ()) = none := by
  have hok : ∀ p : Page, extractLyricsFromUrl (.ok p) =
      match truthyOpt (tryGeniusScraper p) with
      | some l => some l
      | none =>
        match truthyOpt (tryLyricsSiteScraper p) with
        | some l => some l
        | none => truthyOpt (tryGenericScraper p) := fun p => rfl
  refine ⟨hok, fun p l h => tryGeniusScraper_length p l h, ?_, ?_, ?_, rfl⟩
  · intro p l h
    have hne := nonempty_of_long l (tryGeniusScraper_length p l h)
    have ht : truthyOpt (some l) = some l := by simp [truthyOpt, hne]
    rw [hok p, h, ht]
  · intro p h
    unfold tryGeniusScraper
    rw [h]
  · intro p h
    rw [hok p, h]
    rfl

/-- A structured-container (`.lyrics`) text longer than 100 characters. -/
def geniusTextA : String :=
  "aaaaaaaaaaaaaaaaaaaaaaaaaaaaaaaaaaaaaaaaaaaaaaaaaaaaaaaaaaaaaaaaaaaaaaaaaaaaaaaaaaaaaaaaaaaaaaaaaaaaaaaaaaaaaaaaaaaaaa"

/-- A page matching both the structured-container pattern and the generic
heuristic pattern. -/
def pageBoth : Page :=
  ⟨.ok (some geniusTextA), .ok [], [], .ok [blockC6]⟩

set_option maxRecDepth 100000 in
/-- Witness for `extraction_cascade_contract`: on a page matching both the
structured-container and the generic pattern, the structured-container
text is returned. -/
theorem extraction_cascade_contract_witness :
    extractLyricsFromUrl (.ok pageBoth) = some geniusTextA :=
  extraction_cascade_contract.2.2.1 pageBoth geniusTextA (by rfl)

/-- What `get_lyrics` extracts from one candidate: its page title paired
with the first truthy cascade result, when there is one. -/
def candidateResult (fetch : String → Except Unit Page) (it : SearchItem) :
    Option (String × String) :=
  match truthyOpt (extractLyricsFromUrl (fetch it.link)) with
  | some l => some (it.title, l)
  | none => none

theorem getLyricsLoop_eq (fetch : String → Except Unit Page)
    (items : List SearchItem) :
    getLyricsLoop fetch items =
      match items.findSome? (candidateResult fetch) with
      | some r => .ok ⟨r.1, r.2⟩
      | none => .error "Could not extract lyrics from any search result" := by
  induction items with
  | nil => rfl
  | cons it rest ih =>
    rw [List.findSome?_cons]
    cases hx : extractLyricsFromUrl (fetch it.link) with
    | none =>
      have hc : candidateResult fetch it = none := by
        simp [candidateResult, hx, truthyOpt]
      simp only [getLyricsLoop, hx, hc, ih]
    | some l =>
      by_cases he : l.data.isEmpty = true
      · have hc : candidateResult fetch it = none := by
          simp [candidateResult, hx, truthyOpt, he]
        simp only [getLyricsLoop, hx, hc, he, ih, ite_true]
      · have hc : candidateResult fetch it = some (it.title, l) := by
          simp [candidateResult, hx, truthyOpt, he]
        simp only [getLyricsLoop, hx, hc, he, Bool.false_eq_true, ite_false]

/-- C8: `get_lyrics` issues exactly the queries of one Search Client call,
propagates search failures, reports not-found on an absent or empty item
list, and otherwise returns the page title and lyrics of the first
candidate whose fetch-plus-cascade succeeds, skipping failing candidates;
the loop errors exactly when every candidate fails. -/
theorem retrieval_orchestrator_contract :
    (∀ http fetch song, (getLyrics http fetch song).2 = (searchForLyrics http song).2) ∧
    (∀ http fetch song e, (searchForLyrics http song).1 = .error e →
      (getLyrics http fetch song).1 = .error e) ∧
    (∀ http fetch song d, (searchForLyrics http song).1 = .ok d →
      (d.items = none ∨ d.items = some []) →
      (getLyrics http fetch song).1 = .error "No search results found") ∧
    (∀ http fetch song d items, (searchForLyrics http song).1 = .ok d →
      d.items = some items → items ≠ [] →
      (getLyrics http fetch song).1 =
        match items.findSome? (candidateResult fetch) with
        | some r => .ok ⟨r.1, r.2⟩
        | none => .error "Could not extract lyrics from any search result") ∧
    (∀ fetch items, isErr (getLyricsLoop fetch items) = true ↔
      ∀ it ∈ items, candidateResult fetch it = none) := by
  refine ⟨?_, ?_, ?_, ?_, ?_⟩
  · intro http fetch song
    unfold getLyrics
    rcases hs : searchForLyrics http song with ⟨res, tr⟩
    cases res with
    | error e => rfl
    | ok d => rfl
  · intro http fetch song e h
    unfold getLyrics
    rcases hs : searchForLyrics http song with ⟨res, tr⟩
    rw [hs] at h
    simp only at h
    rw [h]
  · intro http fetch song d h hitems
    unfold getLyrics
    rcases hs : searchForLyrics http song with ⟨res, tr⟩
    rw [hs] at h
    simp only at h
    subst h
    show getLyricsResult fetch d = .error "No search results found"
    unfold getLyricsResult
    rcases hitems with h2 | h2 <;> rw [h2]
  · intro http fetch song d items h hitems hne
    unfold getLyrics
    rcases hs : searchForLyrics http song with ⟨res, tr⟩
    rw [hs] at h
    simp only at h
    subst h
    show getLyricsResult fetch d = _
    unfold getLyricsResult
    rw [hitems]
    cases items with
    | nil => exact absurd rfl hne
    | cons it rest => exact getLyricsLoop_eq fetch (it :: rest)
  · intro fetch items
    rw [getLyricsLoop_eq]
    cases hf : items.findSome? (candidateResult fetch) with
    | some r =>
      simp only [isErr]
      constructor
      · intro h; cases h
      · intro hall
        exfalso
        have hnone : items.findSome? (candidateResult fetch) = none :=
          List.findSome?_eq_none_iff.mpr fun x hx => hall x hx
        rw [hf] at hnone
        exact Option.noConfusion hnone
    | none =>
      simp only [isErr]
      constructor
      · intro _
        exact fun it hit => List.findSome?_eq_none_iff.mp hf it hit
      · intro _
        trivial

/-- Three candidates: a failing fetch, a page with no lyrics, and a page
whose structured container succeeds. -/
def itemsW : List SearchItem :=
  [⟨"u1", "T1"⟩, ⟨"u2", "T2"⟩, ⟨"u3", "T3"⟩]

/-- Search oracle returning the three candidates with no correction. -/
def httpW : String → HttpOutcome :=
  fun _ => .ok ⟨none, some itemsW⟩

/-- Fetch oracle: the first URL errors, the second page has nothing, the
third has a structured container. -/
def fetchW : String → Except Unit Page := fun u =>
  if u = "u3" then .ok ⟨.ok (some geniusTextA), .ok [], [], .ok []⟩
  else if u = "u2" then .ok ⟨.ok none, .ok [], [], .ok []⟩
  else .error ()

set_option maxRecDepth 100000 in
/-- Witness for `retrieval_orchestrator_contract`: the first two
candidates fail, the third succeeds, and its title is returned. -/
theorem retrieval_orchestrator_contract_witness :
    (getLyrics httpW fetchW "song").1 = .ok ⟨"T3", geniusTextA⟩ := by
  rw [retrieval_orchestrator_contract.2.2.2.1 httpW fetchW "song"
    ⟨none, some itemsW⟩ itemsW rfl rfl (by simp [itemsW])]
  rfl

/-- C9: when the first search response carries `spelling.correctedQuery`,
exactly one further query is issued, with the corrected text, and the
second response is returned alone — whatever it contains, so a correction
inside it never triggers a third query. -/
theorem search_spelling_correction
    (http : String → HttpOutcome) (song : String) (d : SearchData)
    (sp : SpellingInfo) (c : String)
    (h1 : http (song ++ " lyrics") = .ok d)
    (h2 : d.spelling = some sp) (h3 : sp.correctedQuery = some c) :
    (searchForLyrics http song).2 = [song ++ " lyrics", c ++ " lyrics"] ∧
    (∀ d2, http (c ++ " lyrics") = .ok d2 →
      (searchForLyrics http song).1 = .ok d2) ∧
    (∀ d0, d0.spelling = none →
      ∀ s0, http (s0 ++ " lyrics") = .ok d0 →
        searchForLyrics http s0 = (.ok d0, [s0 ++ " lyrics"])) := by
  refine ⟨?_, ?_, ?_⟩
  · unfold searchForLyrics
    rw [h1]
    show (searchAfterFirst http song d).2 = _
    unfold searchAfterFirst
    simp only [h2, h3]
    cases http (c ++ " lyrics") <;> rfl
  · intro d2 h4
    unfold searchForLyrics
    rw [h1]
    show (searchAfterFirst http song d).1 = _
    unfold searchAfterFirst
    simp only [h2, h3, h4]
  · intro d0 h5 s0 h6
    unfold searchForLyrics
    rw [h6]
    show searchAfterFirst http s0 d0 = _
    unfold searchAfterFirst
    simp only [h5]

/-- A first search response carrying a corrected query, and a corrected
response that itself still carries a corrected query. -/
def httpW9 : String → HttpOutcome := fun q =>
  if q = "shaep fo you" ++ " lyrics" then
    .ok ⟨some ⟨some "shape of you"⟩, none⟩
  else if q = "shape of you" ++ " lyrics" then
    .ok ⟨some ⟨some "shape of you"⟩, some itemsW⟩
  else .reqError "offline"

/-- Witness for `search_spelling_correction`: exactly two queries are
issued even though the corrected response again names a correction, and
the corrected results are returned alone. -/
theorem search_spelling_correction_witness :
    (searchForLyrics httpW9 "shaep fo you").2 =
      ["shaep fo you" ++ " lyrics", "shape of you" ++ " lyrics"] ∧
    (searchForLyrics httpW9 "shaep fo you").1 =
      .ok ⟨some ⟨some "shape of you"⟩, some itemsW⟩ :=
  ⟨(search_spelling_correction httpW9 "shaep fo you"
      ⟨some ⟨some "shape of you"⟩, none⟩ ⟨some "shape of you"⟩ "shape of you"
      (by rfl) rfl rfl).1,
   (search_spelling_correction httpW9 "shaep fo you"
      ⟨some ⟨some "shape of you"⟩, none⟩ ⟨some "shape of you"⟩ "shape of you"
      (by rfl) rfl rfl).2.1
      ⟨some ⟨some "shape of you"⟩, some itemsW⟩ (by rfl)⟩

/-! ## The two annotating routes, api.py `get_lyrics_meaning` (lines
270-349) and `get_lyrics_meaning_cached` (lines 352-435)

Each route is a function of its oracles returning the HTTP-visible
response together with a trace stating whether lyrics normalization ran,
how many model invocations happened, and whether a cache store was
attempted — the observables the claims speak about. -/

/-- The HTTP-visible part of a route response. -/
structure RouteResp where
  status : Nat
  success : Bool
  payload : Option Json
  cachedFlag : Option Bool
  errMsg : Option String

/-- Which pipeline stages ran while handling one request. -/
structure RouteTrace where
  normalizeRan : Bool
  geminiCalls : Nat
  storeAttempted : Bool
deriving DecidableEq

/-- The status code a raised generator error maps to: the unguarded first
`generate_content` call raises the raw google exception (caught only by
the generic `except Exception` handler, 500); every other generator
failure is a `RuntimeError` (400). -/
def gemErrStatus : GemErr → Nat
  | .uncaughtTransport _ => 500
  | _ => 400

/-- The message of each raised generator error. -/
def gemErrText : GemErr → String
  | .configError m => m
  | .uncaughtTransport m => m
  | .quotaExceeded => "Gemini API quota exceeded. Please wait a few minutes or upgrade your plan."
  | .rateLimited => "Gemini API rate limit exceeded. Please wait before retrying."
  | .apiError m => "Gemini API error: " ++ m
  | .emptyResponse => "Gemini returned an empty response"
  | .invalidJson => "Gemini returned invalid JSON format"
  | .missingLyricsMeaning => "Invalid model output: missing lyricsMeaning"
  | .lyricsMeaningNotArray => "Invalid model output: lyricsMeaning must be an array"

/-- Request body of `/api/lyrics/meaning`: `data.get('lyrics', '')` (a
missing field is the empty string, a non-string value is `notStr`),
`str(songId)` when present, and the optional title and artist. -/
structure MeaningReq where
  lyrics : PyInput
  songId : Option String
  title : Option String
  artist : Option String

/-- Lines 325-345 of `get_lyrics_meaning`: normalize, call Gemini, then a
best-effort store whose failure is swallowed by try/except pass. -/
def meaningGenerate (cfg : Except String Unit) (model : Nat → GenCall)
    (req : MeaningReq) : RouteResp × RouteTrace :=
  match normalizeAndValidateLyrics req.lyrics with
  | .error m => (⟨400, false, none, none, some m⟩, ⟨true, 0, false⟩)
  | .ok _ =>
    match callGeminiLyricsMeaning cfg model with
    | (.error ge, n) =>
      (⟨gemErrStatus ge, false, none, none, some (gemErrText ge)⟩, ⟨true, n, false⟩)
    | (.ok payload, n) =>
      (⟨200, true, some payload, some false, none⟩, ⟨true, n, true⟩)

/-- api.py `get_lyrics_meaning`: cache lookup first — a lookup exception
is caught by the generic handler (500, nothing else runs); a truthy
cached payload is returned as-is with `cached: true`; otherwise the
request falls through to validation and generation. -/
def getLyricsMeaningRoute (cacheEnv : CacheEnv) (cfg : Except String Unit)
    (model : Nat → GenCall) (req : MeaningReq) : RouteResp × RouteTrace :=
  match getCachedMeaningFromSupabase cacheEnv req.songId req.title req.artist with
  | .error e => (⟨500, false, none, none, some e⟩, ⟨false, 0, false⟩)
  | .ok ocached =>
    match ocached with
    | some p =>
      if jsonTruthy p then (⟨200, true, some p, some true, none⟩, ⟨false, 0, false⟩)
      else meaningGenerate cfg model req
    | none => meaningGenerate cfg model req

/-- Request body of `/api/lyrics/meaning/cached`. -/
structure MeaningCachedReq where
  songId : Option String
  title : Option String
  artist : Option String
  songName : Option PyInput
  lyricsIn : Option PyInput

/-- Python `a or b` on optional strings (`chosen_title or result.get('title')`). -/
def pyOr (a b : Option String) : Option String :=
  match truthyStr a with
  | some s => some s
  | none => b

/-- Lines 397-405: which lyrics source the cached route uses. -/
inductive LySrc where
  | direct (s : String)
  | extract (name : String)
  | neither

/-- The `elif isinstance(song_name, str) and song_name.strip()` arm. -/
def fallbackName (req : MeaningCachedReq) : LySrc :=
  match req.songName with
  | some (.str n) => if (pyStrip n).data.isEmpty then .neither else .extract (pyStrip n)
  | _ => .neither

/-- The `if isinstance(lyrics_in, str) and lyrics_in.strip()` arm. -/
def lyricsSource (req : MeaningCachedReq) : LySrc :=
  match req.lyricsIn with
  | some (.str s) => if (pyStrip s).data.isEmpty then fallbackName req else .direct s
  | _ => fallbackName req

/-- `payload.get(key)` on a decoded payload. -/
def jsonGet (j : Json) (k : String) : Option Json :=
  match j with
  | .obj kvs => lookupLast kvs k
  | _ => none

/-- `jsonify` of an optional string field. -/
def optStrJson : Option String → Json
  | some s => .str s
  | none => .null

/-- Lines 407-430: generate the meaning and build the combined payload
`{songId, title, artist, lyrics, lyricsMeaning}`; the store is again
best-effort. -/
def cachedAfterLyrics (cfg : Except String Unit) (model : Nat → GenCall)
    (artist chosenTitle : Option String) (lyricsText : String)
    (preTrace : RouteTrace) : RouteResp × RouteTrace :=
  match callGeminiLyricsMeaning cfg model with
  | (.error ge, n) =>
    (⟨gemErrStatus ge, false, none, none, some (gemErrText ge)⟩,
     ⟨preTrace.normalizeRan, n, false⟩)
  | (.ok meaning, n) =>
    (⟨200, true,
      some (Json.obj [
        ("songId", (jsonGet meaning "songId").getD Json.null),
        ("title", optStrJson chosenTitle),
        ("artist", optStrJson artist),
        ("lyrics", Json.str lyricsText),
        ("lyricsMeaning", (jsonGet meaning "lyricsMeaning").getD (Json.arr []))]),
      some false, none⟩,
     ⟨preTrace.normalizeRan, n, true⟩)

/-- Lines 393-430 of the cached route, after a cache miss. -/
def cachedGenerate (cfg : Except String Unit) (model : Nat → GenCall)
    (http : String → HttpOutcome) (fetch : String → Except Unit Page)
    (req : MeaningCachedReq) : RouteResp × RouteTrace :=
  match lyricsSource req with
  | .neither =>
    (⟨400, false, none, none,
      some "Provide either lyrics or song_name to extract lyrics"⟩,
     ⟨false, 0, false⟩)
  | .direct s =>
    match normalizeAndValidateLyrics (.str s) with
    | .error m => (⟨400, false, none, none, some m⟩, ⟨true, 0, false⟩)
    | .ok lyr => cachedAfterLyrics cfg model req.artist req.title lyr ⟨true, 0, false⟩
  | .extract name =>
    match (getLyrics http fetch name).1 with
    | .error e => (⟨500, false, none, none, some e⟩, ⟨false, 0, false⟩)
    | .ok doc =>
      match normalizeAndValidateLyrics (.str doc.lyrics) with
      | .error m => (⟨400, false, none, none, some m⟩, ⟨true, 0, false⟩)
      | .ok lyr =>
        cachedAfterLyrics cfg model req.artist (pyOr req.title (some doc.title)) lyr
          ⟨true, 0, false⟩

/-- api.py `get_lyrics_meaning_cached`: the same cache-first shape as
`get_lyrics_meaning`, then lyrics resolution, generation and best-effort
store. -/
def getLyricsMeaningCachedRoute (cacheEnv : CacheEnv) (cfg : Except String Unit)
    (model : Nat → GenCall) (http : String → HttpOutcome)
    (fetch : String → Except Unit Page) (req : MeaningCachedReq) :
    RouteResp × RouteTrace :=
  match getCachedMeaningFromSupabase cacheEnv req.songId req.title req.artist with
  | .error e => (⟨500, false, none, none, some e⟩, ⟨false, 0, false⟩)
  | .ok ocached =>
    match ocached with
    | some p =>
      if jsonTruthy p then (⟨200, true, some p, some true, none⟩, ⟨false, 0, false⟩)
      else cachedGenerate cfg model http fetch req
    | none => cachedGenerate cfg model http fetch req

/-- A model oracle always answering bare JSON `null`. -/
def modelNull : Nat → GenCall := fun _ => GenCall.ok (some "null")

/-- A cache whose client constructs but whose backing store fails at
query time. -/
def envExecFail : CacheEnv := ⟨.ok (), fun _ => .error "connection reset"⟩

/-- C2 (counterexample): with a constructed client but a failing backing
store, the lookup raises instead of returning null, and the surrounding
route aborts with a 500 response before validation, generation or store. -/
theorem cache_lookup_exec_failure_counterexample :
    getCachedMeaningFromSupabase envExecFail (some "42") none none =
      .error "connection reset" ∧
    (getLyricsMeaningRoute envExecFail (.ok ()) modelNull
      ⟨.str "la la la", some "42", none, none⟩).1.status = 500 ∧
    (getLyricsMeaningRoute envExecFail (.ok ()) modelNull
      ⟨.str "la la la", some "42", none, none⟩).2 = ⟨false, 0, false⟩ :=
  ⟨rfl, rfl, rfl⟩

/-- C2 (amended): the lookup returns null when the client cannot be
constructed (missing credentials, misconfiguration, missing package) or
when no identity key is supplied; but a backing-store failure while
executing the query raises, and the surrounding route then aborts with a
500 response without running validation, generation or the store. -/
theorem cache_lookup_error_policy :
    (∀ (env : CacheEnv) (sid t a : Option String) (m : String),
      env.client = .error m →
      getCachedMeaningFromSupabase env sid t a = .ok none) ∧
    (∀ (env : CacheEnv) (sid t a : Option String),
      truthyStr sid = none → truthyStr t = none →
      getCachedMeaningFromSupabase env sid t a = .ok none) ∧
    (∀ (env : CacheEnv) (q : CacheQuery) (e : String),
      env.exec q = .error e → runQuery env q = .error e) ∧
    (∀ (cacheEnv : CacheEnv) (cfg : Except String Unit) (model : Nat → GenCall)
      (req : MeaningReq) (e : String),
      getCachedMeaningFromSupabase cacheEnv req.songId req.title req.artist = .error e →
      getLyricsMeaningRoute cacheEnv cfg model req =
        (⟨500, false, none, none, some e⟩, ⟨false, 0, false⟩)) := by
  refine ⟨?_, ?_, ?_, ?_⟩
  · intro env sid t a m h
    unfold getCachedMeaningFromSupabase
    rw [h]
  · intro env sid t a hsid ht
    rcases env with ⟨cl, ex⟩
    cases cl with
    | error m => rfl
    | ok u => simp [getCachedMeaningFromSupabase, hsid, ht]
  · intro env q e h
    unfold runQuery
    rw [h]
  · intro cacheEnv cfg model req e h
    unfold getLyricsMeaningRoute
    rw [h]

/-- Witness for `cache_lookup_error_policy`: a cache with no credentials
yields a null lookup rather than an error. -/
theorem cache_lookup_error_policy_witness :
    getCachedMeaningFromSupabase
      ⟨.error "SUPABASE_URL and SUPABASE_SERVICE_ROLE_KEY (or SUPABASE_ANON_KEY) must be set",
       fun _ => .ok []⟩ (some "42") (some "t") (some "a") = .ok none :=
  cache_lookup_error_policy.1
    ⟨.error "SUPABASE_URL and SUPABASE_SERVICE_ROLE_KEY (or SUPABASE_ANON_KEY) must be set",
     fun _ => .ok []⟩ (some "42") (some "t") (some "a")
    "SUPABASE_URL and SUPABASE_SERVICE_ROLE_KEY (or SUPABASE_ANON_KEY) must be set" rfl

/-- A cache row holding an empty-object payload for songId 1. -/
def envFalsy : CacheEnv :=
  ⟨.ok (), fun q => if q = .bySongId "1" then .ok [some (Json.obj [])] else .ok []⟩

/-- A request addressing that row with an empty lyrics field. -/
def reqFalsy : MeaningReq := ⟨.str "", some "1", none, none⟩

/-- C10 (counterexample): a request whose identity key hits the cache —
the lookup returns the stored payload — is still NOT answered from the
cache when that payload is falsy (here the empty object), because of the
`if cached:` truthiness test; the route instead proceeds to validation
and fails it. -/
theorem cache_hit_falsy_payload_counterexample :
    getCachedMeaningFromSupabase envFalsy (some "1") none none =
      .ok (some (Json.obj [])) ∧
    (getLyricsMeaningRoute envFalsy (.ok ()) modelNull reqFalsy).1.cachedFlag = none ∧
    (getLyricsMeaningRoute envFalsy (.ok ()) modelNull reqFalsy).1.status = 400 ∧
    (getLyricsMeaningRoute envFalsy (.ok ()) modelNull reqFalsy).2.normalizeRan = true :=
  ⟨rfl, rfl, rfl, rfl⟩

/-- C10 (amended): in both annotating routes the cache lookup precedes
lyrics validation: any request whose identity key hits the cache with a
truthy payload is answered with that payload and `cached: true` — whatever
its lyrics field holds — and neither normalization nor a model invocation
nor a store happens; a falsy cached payload is treated as a miss. -/
theorem cache_first_both_routes
    (cacheEnv : CacheEnv) (cfg : Except String Unit) (model : Nat → GenCall)
    (http : String → HttpOutcome) (fetch : String → Except Unit Page)
    (req1 : MeaningReq) (req2 : MeaningCachedReq) (p q : Json)
    (h1 : getCachedMeaningFromSupabase cacheEnv req1.songId req1.title req1.artist
      = .ok (some p))
    (hp : jsonTruthy p = true)
    (h2 : getCachedMeaningFromSupabase cacheEnv req2.songId req2.title req2.artist
      = .ok (some q))
    (hq : jsonTruthy q = true) :
    getLyricsMeaningRoute cacheEnv cfg model req1 =
      (⟨200, true, some p, some true, none⟩, ⟨false, 0, false⟩) ∧
    getLyricsMeaningCachedRoute cacheEnv cfg model http fetch req2 =
      (⟨200, true, some q, some true, none⟩, ⟨false, 0, false⟩) := by
  constructor
  · simp only [getLyricsMeaningRoute, h1, hp, ite_true]
  · simp only [getLyricsMeaningCachedRoute, h2, hq, ite_true]

/-- The payload cached for songId 7. -/
def payloadW : Json := Json.obj [("lyricsMeaning", Json.arr [])]

/-- A cache holding that payload under songId 7. -/
def envHit : CacheEnv :=
  ⟨.ok (), fun q => if q = .bySongId "7" then .ok [some payloadW] else .ok []⟩

/-- Witness for `cache_first_both_routes`: both routes answer from the
cache, with no lyrics supplied at all. -/
theorem cache_first_both_routes_witness :
    getLyricsMeaningRoute envHit (.ok ()) modelNull ⟨.str "", some "7", none, none⟩ =
      (⟨200, true, some payloadW, some true, none⟩, ⟨false, 0, false⟩) ∧
    getLyricsMeaningCachedRoute envHit (.ok ()) modelNull httpW fetchW
      ⟨some "7", none, none, none, none⟩ =
      (⟨200, true, some payloadW, some true, none⟩, ⟨false, 0, false⟩) :=
  cache_first_both_routes envHit (.ok ()) modelNull httpW fetchW
    ⟨.str "", some "7", none, none⟩ ⟨some "7", none, none, none, none⟩
    payloadW payloadW (by rfl) (by rfl) (by rfl) (by rfl)
